import Mathlib

/-
  Verification of the BookStore REST API (src/server.js).

  The server keeps a mutable array `books` of book records and exposes five
  route handlers.  We embed the state as a `List Book` and each handler as a
  pure function from the current state (plus the request data) to the pair
  of the next state and the HTTP response that the handler sends.
-/

namespace BookStore

/-- A book record.  In the JavaScript source a record is an object with the
fields id, title, author, genre, copiesAvailable; every field other than id
may be `undefined`, which we model with `Option`. -/
structure Book where
  id : Int
  title : Option String
  author : Option String
  genre : Option String
  copiesAvailable : Option Int
  deriving DecidableEq

/-- The parsed JSON request body, as destructured by the handlers:
`const { title, author, genre, copiesAvailable } = req.body`.  A field that
is missing from the body destructures to `undefined`, modelled as `none`. -/
structure Payload where
  title : Option String
  author : Option String
  genre : Option String
  copiesAvailable : Option Int
  deriving DecidableEq

/-- The body with no fields at all: `req.body = {}` (what express.json
produces for a request with an empty body). -/
def emptyPayload : Payload := ⟨none, none, none, none⟩

/-- The HTTP responses the handlers in src/server.js can produce, one
constructor per res.json call shape.  The error and message strings are
carried so theorems can state the exact response bodies. -/
inductive Response where
  | okBook (book : Book)
  | okList (books : List Book)
  | created (book : Book)
  | deleted (message : String) (book : Book)
  | notFound (error : String)
  deriving DecidableEq

/-- The HTTP status code of each response: res.json defaults to 200,
res.status(201) on create, res.status(404) on the not-found paths. -/
def Response.status : Response → Nat
  | .okBook _ => 200
  | .okList _ => 200
  | .created _ => 201
  | .deleted _ _ => 200
  | .notFound _ => 404

/-- Longest prefix of characters satisfying `isD`, as Array.prototype
behaviour of parseInt scanning digits from the left. -/
def takeDigits (isD : Char → Bool) : List Char → List Char
  | [] => []
  | c :: cs => if isD c then c :: takeDigits isD cs else []

/-- Value of a decimal digit character. -/
def decDigitVal (c : Char) : Nat := c.toNat - 48

/-- Value of a hexadecimal digit character. -/
def hexDigitVal (c : Char) : Nat :=
  if c.isDigit then c.toNat - 48
  else if 'a' ≤ c then c.toNat - 87
  else c.toNat - 55

/-- Hexadecimal digit test (0-9, a-f, A-F). -/
def isHexDigitChar (c : Char) : Bool :=
  c.isDigit || ('a' ≤ c && c ≤ 'f') || ('A' ≤ c && c ≤ 'F')

/-- Numeric value of a decimal digit string. -/
def decVal (ds : List Char) : Nat := ds.foldl (fun acc c => acc * 10 + decDigitVal c) 0

/-- Numeric value of a hexadecimal digit string. -/
def hexVal (ds : List Char) : Nat := ds.foldl (fun acc c => acc * 16 + hexDigitVal c) 0

/-- Strips an optional leading sign, returning the sign and the rest,
as parseInt does after trimming whitespace. -/
def stripSign (cs : List Char) : Int × List Char :=
  match cs with
  | [] => (1, [])
  | c :: tail => if c = '-' then (-1, tail) else if c = '+' then (1, tail) else (1, cs)

/-- Detects the hexadecimal marker 0x or 0X; parseInt with an unspecified
radix switches to base 16 when the digits begin with this marker. -/
def stripHexMark : List Char → Option (List Char)
  | c1 :: c2 :: tail => if c1 = '0' ∧ (c2 = 'x' ∨ c2 = 'X') then some tail else none
  | _ => none

/-- Model of the JavaScript parseInt(string) call with the radix argument
unspecified, as used on req.params.id by the three id-based handlers:
leading whitespace is skipped, an optional sign is read, a leading 0x or 0X
selects base 16, then the longest prefix of digits of the selected base is
converted; if that prefix is empty the result is NaN, modelled as `none`.
NaN compares strictly-unequal to every number, so a `none` id can never
match any record. -/
def parseIntJS (s : String) : Option Int :=
  let cs := s.data.dropWhile Char.isWhitespace
  let sr := stripSign cs
  match stripHexMark sr.2 with
  | some tail =>
      let ds := takeDigits isHexDigitChar tail
      if ds = [] then none else some (sr.1 * (hexVal ds : Int))
  | none =>
      let ds := takeDigits Char.isDigit sr.2
      if ds = [] then none else some (sr.1 * (decVal ds : Int))

/-- Array.prototype.findIndex: index of the first element satisfying `p`
(the JavaScript -1 result is modelled as `none`). -/
def findIndex {α : Type} (p : α → Bool) : List α → Option Nat
  | [] => none
  | a :: l => if p a then some 0 else (findIndex p l).map (· + 1)

/-- Array.prototype.find: the first element satisfying `p`. -/
def findBook {α : Type} (p : α → Bool) : List α → Option α
  | [] => none
  | a :: l => if p a then some a else findBook p l

/-- Number of elements satisfying `p`, used to express that an id occurs at
most once in the collection. -/
def countMatches {α : Type} (p : α → Bool) : List α → Nat
  | [] => 0
  | a :: l => (if p a then 1 else 0) + countMatches p l

/-- The three seed records the `books` array is initialised with. -/
def seedBooks : List Book :=
  [ { id := 1, title := some "The Great Gatsby", author := some "F. Scott Fitzgerald",
      genre := some "Fiction", copiesAvailable := some 5 },
    { id := 2, title := some "To Kill a Mockingbird", author := some "Harper Lee",
      genre := some "Fiction", copiesAvailable := some 3 },
    { id := 3, title := some "1984", author := some "George Orwell",
      genre := some "Dystopian Fiction", copiesAvailable := some 7 } ]

/-- GET /api/books: responds with the whole collection, no state change. -/
def getAllBooks (books : List Book) : List Book × Response :=
  (books, Response.okList books)

/-- GET /api/books/:id: parses the id with parseInt and looks up the first
record with that id via books.find.  When parseInt yields NaN (`none`) the
strict comparison id === bookId is false for every record, so the search
fails; both failure paths answer 404 with the error body Book not found. -/
def getBookById (books : List Book) (idStr : String) : List Book × Response :=
  match parseIntJS idStr with
  | none => (books, Response.notFound "Book not found")
  | some n =>
      match findBook (fun b => b.id == n) books with
      | some book => (books, Response.okBook book)
      | none => (books, Response.notFound "Book not found")

/-- POST /api/books: destructures the body, builds the new record with
id = books.length + 1 and the four destructured fields, pushes it onto the
array and answers 201 with the created record.  The handler performs no
validation of the body whatsoever. -/
def createBook (books : List Book) (p : Payload) : List Book × Response :=
  let newBook : Book :=
    { id := (books.length : Int) + 1, title := p.title, author := p.author,
      genre := p.genre, copiesAvailable := p.copiesAvailable }
  (books ++ [newBook], Response.created newBook)

/-- PUT /api/books/:id: parses the id, finds the index of the record with
that id, and on a match overwrites that array slot with a brand-new object
built from the parsed id and the destructured body fields (a full
replacement, not a merge); on findIndex === -1 it answers 404.  A NaN id
(`none`) matches no record, so that path also answers 404 unchanged. -/
def updateBook (books : List Book) (idStr : String) (p : Payload) : List Book × Response :=
  match parseIntJS idStr with
  | none => (books, Response.notFound "Book not found")
  | some n =>
      match findIndex (fun b => b.id == n) books with
      | none => (books, Response.notFound "Book not found")
      | some i =>
          let newBook : Book :=
            { id := n, title := p.title, author := p.author,
              genre := p.genre, copiesAvailable := p.copiesAvailable }
          (books.set i newBook, Response.okBook newBook)

/-- DELETE /api/books/:id: parses the id, finds the index of the record
with that id, and on a match removes exactly that element with
books.splice(bookIndex, 1), answering 200 with the removed record; on
findIndex === -1 (including the NaN id case) it answers 404.  The final
match arm is unreachable because findIndex only returns in-bounds
indices. -/
def deleteBook (books : List Book) (idStr : String) : List Book × Response :=
  match parseIntJS idStr with
  | none => (books, Response.notFound "Book not found")
  | some n =>
      match findIndex (fun b => b.id == n) books with
      | none => (books, Response.notFound "Book not found")
      | some i =>
          match books[i]? with
          | some b => (books.eraseIdx i, Response.deleted "Book deleted successfully" b)
          | none => (books, Response.notFound "Book not found")

/-- Modelled from the spec: the test-only reset capability (the test suite
calls app.resetBooks, which src/server.js never defines or exports; only
this caller is in the repository).  Per the spec it resets the collection
to its initial 3-record seed state. -/
def resetBooks (_books : List Book) : List Book := seedBooks

/-- One mutating request, for describing sequences of operations. -/
inductive Op where
  | create (p : Payload)
  | replace (idStr : String) (p : Payload)
  | delete (idStr : String)

/-- The state reached after serving one mutating request. -/
def applyOp (books : List Book) : Op → List Book
  | .create p => (createBook books p).1
  | .replace idStr p => (updateBook books idStr p).1
  | .delete idStr => (deleteBook books idStr).1

/-- The state reached after serving a sequence of mutating requests. -/
def runOps (books : List Book) (ops : List Op) : List Book := ops.foldl applyOp books

/-- The list of ids currently stored, in collection order. -/
def idsOf (books : List Book) : List Int := books.map Book.id

/-- A concrete reachable state with a duplicated id: starting from the
seed, DELETE /api/books/2 and then one POST.  The create assigns
id = 2 + 1 = 3, which collides with the surviving seed record of id 3. -/
def dupState : List Book := runOps seedBooks [Op.delete "2", Op.create emptyPayload]

/-- A concrete reachable state holding sixteen records with ids 1..16:
thirteen consecutive POSTs on top of the seed. -/
def state16 : List Book := runOps seedBooks (List.replicate 13 (Op.create emptyPayload))

/-- States reachable from the seed by any sequence of the three mutating
operations. -/
inductive Reachable : List Book → Prop where
  | seed : Reachable seedBooks
  | step (op : Op) : Reachable s → Reachable (applyOp s op)

/-- States reachable from the seed using only Create and Replace
operations (no Delete). -/
inductive ReachableND : List Book → Prop where
  | seed : ReachableND seedBooks
  | create (p : Payload) : ReachableND s → ReachableND (createBook s p).1
  | replace (idStr : String) (p : Payload) : ReachableND s → ReachableND (updateBook s idStr p).1

/-- The list of integers 1, 2, ..., n. -/
def intSeq : Nat → List Int
  | 0 => []
  | n + 1 => intSeq n ++ [(n : Int) + 1]

/-
  Helper lemmas about the list primitives.
-/

theorem findIndex_some {α : Type} (p : α → Bool) (l : List α) :
    ∀ (i : Nat), findIndex p l = some i → ∃ a, l[i]? = some a ∧ p a = true := by
  induction l with
  | nil => intro i h; simp [findIndex] at h
  | cons a l ih =>
      intro i h
      cases hpa : p a with
      | true =>
          simp [findIndex, hpa] at h
          exact h ▸ ⟨a, by simp, hpa⟩
      | false =>
          simp [findIndex, hpa] at h
          obtain ⟨j, hj, hji⟩ := h
          obtain ⟨b, hb, hpb⟩ := ih j hj
          exact ⟨b, by rw [← hji]; simpa using hb, hpb⟩

theorem findIndex_none_iff {α : Type} (p : α → Bool) (l : List α) :
    findIndex p l = none ↔ ∀ a ∈ l, p a = false := by
  induction l with
  | nil => simp [findIndex]
  | cons a l ih =>
      cases hpa : p a with
      | true => simp [findIndex, hpa]
      | false => simp [findIndex, hpa, ih]

theorem findBook_eq_none {α : Type} (p : α → Bool) (l : List α)
    (h : ∀ a ∈ l, p a = false) : findBook p l = none := by
  induction l with
  | nil => rfl
  | cons a l ih =>
      simp [findBook, h a (by simp)]
      exact ih (fun x hx => h x (by simp [hx]))

theorem findBook_first {α : Type} (p : α → Bool) (l : List α) :
    ∀ (i : Nat) (b : α), l[i]? = some b → p b = true →
      (∀ (j : Nat) (c : α), j < i → l[j]? = some c → p c = false) →
      findBook p l = some b := by
  induction l with
  | nil => intro i b hb _ _; simp at hb
  | cons a l ih =>
      intro i b hb hpb hfirst
      cases i with
      | zero =>
          simp at hb
          subst hb
          simp [findBook, hpb]
      | succ i =>
          have hpa : p a = false := hfirst 0 a (Nat.succ_pos i) (by simp)
          simp at hb
          simp [findBook, hpa]
          exact ih i b hb hpb
            (fun j c hj hc => hfirst (j + 1) c (Nat.succ_lt_succ hj) (by simpa using hc))

theorem countMatches_eraseIdx {α : Type} (p : α → Bool) (l : List α) :
    ∀ (i : Nat) (a : α), l[i]? = some a → p a = true →
      countMatches p (l.eraseIdx i) + 1 = countMatches p l := by
  induction l with
  | nil => intro i a h _; simp at h
  | cons b l ih =>
      intro i a h hpa
      cases i with
      | zero =>
          simp at h
          subst h
          simp [List.eraseIdx, countMatches, hpa]
          omega
      | succ i =>
          simp at h
          have := ih i a h hpa
          simp [List.eraseIdx, countMatches]
          omega

theorem findIndex_eq_none_of_countMatches_zero {α : Type} (p : α → Bool) (l : List α)
    (h : countMatches p l = 0) : findIndex p l = none := by
  induction l with
  | nil => rfl
  | cons a l ih =>
      cases hpa : p a with
      | true => rw [countMatches, hpa] at h; simp at h
      | false =>
          rw [countMatches, hpa] at h
          simp at h
          simp [findIndex, hpa, ih h]

theorem set_of_getElem?_self {α : Type} (l : List α) :
    ∀ (i : Nat) (a : α), l[i]? = some a → l.set i a = l := by
  induction l with
  | nil => intro i a h; simp at h
  | cons b l ih =>
      intro i a h
      cases i with
      | zero => simp at h; subst h; simp
      | succ i => simp at h; simp [ih i a h]

theorem map_eraseIdx {α β : Type} (f : α → β) (l : List α) :
    ∀ (i : Nat), (l.eraseIdx i).map f = (l.map f).eraseIdx i := by
  induction l with
  | nil => intro i; simp
  | cons a l ih => intro i; cases i <;> simp [List.eraseIdx, ih]

/-
  Character-level lemmas about the parseInt model.
-/

theorem char_digit_bounds (c : Char) (h : c.isDigit = true) :
    48 ≤ c.val.toNat ∧ c.val.toNat ≤ 57 := by
  simp only [Char.isDigit, Bool.and_eq_true, decide_eq_true_eq] at h
  exact ⟨h.1, h.2⟩

theorem digit_ne (c : Char) (h : c.isDigit = true) (b : Char)
    (hb : b.val.toNat < 48 ∨ 57 < b.val.toNat) : c ≠ b := by
  intro he
  obtain ⟨h1, h2⟩ := char_digit_bounds c h
  rw [he] at h1 h2
  omega

theorem digit_isWhitespace_false (c : Char) (h : c.isDigit = true) :
    c.isWhitespace = false := by
  have h32 := digit_ne c h ' ' (by decide)
  have h9 := digit_ne c h '\t' (by decide)
  have h13 := digit_ne c h '\x0d' (by decide)
  have h10 := digit_ne c h '\n' (by decide)
  simp only [Char.isWhitespace]
  rw [decide_eq_false h32, decide_eq_false h9, decide_eq_false h13, decide_eq_false h10]
  rfl

theorem stripSign_digit (c : Char) (cs : List Char) (h : c.isDigit = true) :
    stripSign (c :: cs) = (1, c :: cs) := by
  have hm := digit_ne c h '-' (by decide)
  have hp := digit_ne c h '+' (by decide)
  simp [stripSign, hm, hp]

theorem stripHexMark_digits (d : Char) (ds' suf : List Char)
    (hd : d.isDigit = true)
    (hds : ∀ c ∈ ds', c.isDigit = true)
    (hnohex : ¬(d :: ds' = ['0'] ∧ (suf.head? = some 'x' ∨ suf.head? = some 'X'))) :
    stripHexMark ((d :: ds') ++ suf) = none := by
  cases ds' with
  | cons d2 rest =>
      have hx := digit_ne d2 (hds d2 (by simp)) 'x' (by decide)
      have hX := digit_ne d2 (hds d2 (by simp)) 'X' (by decide)
      simp [stripHexMark, hx, hX]
  | nil =>
      cases suf with
      | nil => simp [stripHexMark]
      | cons c cs =>
          by_cases h0 : d = '0'
          · subst h0
            have hcx : c ≠ 'x' := fun he => hnohex ⟨rfl, Or.inl (by simp [he])⟩
            have hcX : c ≠ 'X' := fun he => hnohex ⟨rfl, Or.inr (by simp [he])⟩
            simp [stripHexMark, hcx, hcX]
          · simp [stripHexMark, h0]

theorem takeDigits_append (isD : Char → Bool) (suf : List Char)
    (hsuf : (suf.head?.all fun c => !(isD c)) = true) :
    ∀ (ds : List Char), (∀ c ∈ ds, isD c = true) →
      takeDigits isD (ds ++ suf) = ds := by
  intro ds
  induction ds with
  | nil =>
      intro _
      cases suf with
      | nil => rfl
      | cons c cs =>
          simp [Option.all] at hsuf
          simp [takeDigits, hsuf]
  | cons d ds ih =>
      intro hds
      simp only [List.cons_append, takeDigits, hds d (by simp), if_true]
      show d :: takeDigits isD (ds ++ suf) = d :: ds
      rw [ih (fun c hc => hds c (by simp [hc]))]

theorem parseIntJS_digits_append (ds suf : List Char)
    (hne : ds ≠ [])
    (hds : ∀ c ∈ ds, c.isDigit = true)
    (hsuf : (suf.head?.all fun c => !c.isDigit) = true)
    (hnohex : ¬(ds = ['0'] ∧ (suf.head? = some 'x' ∨ suf.head? = some 'X'))) :
    parseIntJS (String.mk (ds ++ suf)) = some ((decVal ds : Nat) : Int) := by
  obtain ⟨d, ds', rfl⟩ : ∃ d ds', ds = d :: ds' := by
    cases ds with
    | nil => exact absurd rfl hne
    | cons d ds' => exact ⟨d, ds', rfl⟩
  have hd : d.isDigit = true := hds d (by simp)
  have hdrop : ((d :: ds') ++ suf).dropWhile Char.isWhitespace = (d :: ds') ++ suf := by
    simp [List.dropWhile_cons, digit_isWhitespace_false d hd]
  have hsign : stripSign ((d :: ds') ++ suf) = (1, (d :: ds') ++ suf) :=
    stripSign_digit d (ds' ++ suf) hd
  have hmark := stripHexMark_digits d ds' suf hd (fun c hc => hds c (by simp [hc])) hnohex
  have htake : takeDigits Char.isDigit ((d :: ds') ++ suf) = d :: ds' :=
    takeDigits_append Char.isDigit suf hsuf (d :: ds') hds
  simp only [parseIntJS, String.mk, hdrop, hsign, hmark, htake]
  simp

theorem parseIntJS_digits (ds : List Char)
    (hne : ds ≠ [])
    (hds : ∀ c ∈ ds, c.isDigit = true) :
    parseIntJS (String.mk ds) = some ((decVal ds : Nat) : Int) := by
  have h := parseIntJS_digits_append ds [] hne hds (by rfl)
    (by rintro ⟨-, h | h⟩ <;> simp at h)
  simpa using h

theorem handlers_factor (books : List Book) (p : Payload) (s t : String)
    (h : parseIntJS s = parseIntJS t) :
    getBookById books s = getBookById books t ∧
    updateBook books s p = updateBook books t p ∧
    deleteBook books s = deleteBook books t := by
  refine ⟨?_, ?_, ?_⟩ <;> simp only [getBookById, updateBook, deleteBook, h]

/-
  Lemmas about the effect of each handler on the stored ids.
-/

theorem updateBook_ids (books : List Book) (idStr : String) (p : Payload) :
    idsOf (updateBook books idStr p).1 = idsOf books := by
  cases hp : parseIntJS idStr with
  | none => simp [updateBook, hp]
  | some n =>
      cases hf : findIndex (fun b => b.id == n) books with
      | none => simp [updateBook, hp, hf]
      | some i =>
          obtain ⟨b, hb, hpb⟩ := findIndex_some _ books i hf
          have hbid : b.id = n := by simpa using hpb
          have h1 : (updateBook books idStr p).1 =
              books.set i ⟨n, p.title, p.author, p.genre, p.copiesAvailable⟩ := by
            simp [updateBook, hp, hf]
          rw [h1]
          simp only [idsOf, List.map_set]
          apply set_of_getElem?_self
          rw [List.getElem?_map, hb]
          simp [hbid]

theorem updateBook_length (books : List Book) (idStr : String) (p : Payload) :
    (updateBook books idStr p).1.length = books.length := by
  have h := congrArg List.length (updateBook_ids books idStr p)
  simpa [idsOf] using h

theorem createBook_ids (books : List Book) (p : Payload) :
    idsOf (createBook books p).1 = idsOf books ++ [(books.length : Int) + 1] := by
  simp [createBook, idsOf]

theorem intSeq_mem_le (n : Nat) : ∀ x ∈ intSeq n, x ≤ (n : Int) := by
  induction n with
  | zero => intro x hx; simp [intSeq] at hx
  | succ n ih =>
      intro x hx
      simp only [intSeq, List.mem_append, List.mem_singleton] at hx
      rcases hx with hx | rfl
      · have := ih x hx; push_cast; omega
      · push_cast; omega

theorem intSeq_nodup (n : Nat) : (intSeq n).Nodup := by
  induction n with
  | zero => simp [intSeq]
  | succ n ih =>
      simp only [intSeq]
      rw [List.nodup_append]
      refine ⟨ih, List.nodup_singleton _, ?_⟩
      intro x hx hmem
      simp only [List.mem_singleton] at hmem
      subst hmem
      have h := intSeq_mem_le n _ hx
      push_cast at h
      omega

theorem reachableND_ids (s : List Book) (h : ReachableND s) :
    idsOf s = intSeq s.length := by
  induction h with
  | seed => decide
  | create p hprev ih =>
      rename_i t
      have hlen : (createBook t p).1.length = t.length + 1 := by simp [createBook]
      rw [createBook_ids, ih, hlen, intSeq]
  | replace idStr p hprev ih =>
      rename_i t
      rw [updateBook_ids, updateBook_length]
      exact ih

theorem reachable_runOps (ops : List Op) :
    ∀ (s : List Book), Reachable s → Reachable (runOps s ops) := by
  induction ops with
  | nil => intro s h; exact h
  | cons op ops ih => intro s h; exact ih (applyOp s op) (Reachable.step op h)

/-
  The claims.
-/

/-- C1, counterexample to the claim as stated: the state reached from the
3-record seed by DELETE /api/books/2 followed by one POST is reachable, yet
its stored ids are 1, 3, 3 — not pairwise distinct.  Create assigned
id = 2 + 1 = 3, an id already present. -/
theorem c1_counterexample : Reachable dupState ∧ ¬ (idsOf dupState).Nodup := by
  constructor
  · exact reachable_runOps [Op.delete "2", Op.create emptyPayload] seedBooks Reachable.seed
  · decide

/-- C1, amended: in every state reachable from the 3-record seed using only
Create and Replace operations (no Delete), the ids present in the
collection are pairwise distinct; once a Delete occurs, Create (which
assigns id = length + 1) can introduce an id that is already present. -/
theorem c1_distinct_ids_without_delete (s : List Book) (h : ReachableND s) :
    (idsOf s).Nodup := by
  rw [reachableND_ids s h]
  exact intSeq_nodup s.length

theorem c1_distinct_ids_without_delete_witness :
    (idsOf (createBook seedBooks emptyPayload).1).Nodup :=
  c1_distinct_ids_without_delete (createBook seedBooks emptyPayload).1
    (ReachableND.create emptyPayload ReachableND.seed)

/-- C2: the POST handler performs no validation at all.  At the claimed
failing input — the empty request body on the seed state — it appends a
record with id 4 and every other field undefined and answers 201, instead
of the 400 Request body required answer that the claim (and the test suite
of the repository) describes; in fact every POST whatsoever answers 201
and grows the collection by one. -/
theorem c2_create_ignores_empty_body :
    createBook seedBooks emptyPayload =
      (seedBooks ++ [⟨4, none, none, none, none⟩],
       Response.created ⟨4, none, none, none, none⟩) ∧
    (createBook seedBooks emptyPayload).1.length = 4 ∧
    (createBook seedBooks emptyPayload).2.status = 201 ∧
    (∀ (books : List Book) (p : Payload),
       (createBook books p).2.status = 201 ∧
       (createBook books p).1.length = books.length + 1) := by
  refine ⟨by decide, by decide, rfl, ?_⟩
  intro books p
  exact ⟨rfl, by simp [createBook]⟩

/-- C3: for every non-empty payload, Create builds the record with
id = length + 1 and exactly the four payload fields (missing ones staying
absent), appends it at the end — the length grows by one and every prior
slot is untouched — and answers 201 with the created record. -/
theorem c3_create_spec (books : List Book) (p : Payload) (hne : p ≠ emptyPayload) :
    createBook books p =
      (books ++ [⟨(books.length : Int) + 1, p.title, p.author, p.genre, p.copiesAvailable⟩],
       Response.created
         ⟨(books.length : Int) + 1, p.title, p.author, p.genre, p.copiesAvailable⟩) ∧
    (createBook books p).1.length = books.length + 1 ∧
    (∀ (j : Nat), j < books.length → (createBook books p).1[j]? = books[j]?) ∧
    (createBook books p).2.status = 201 := by
  refine ⟨rfl, by simp [createBook], ?_, rfl⟩
  intro j hj
  simp [createBook, List.getElem?_append, hj]

theorem c3_create_spec_witness :
    (⟨some "New Book", some "Author", some "Genre", some 10⟩ : Payload) ≠ emptyPayload ∧
    createBook seedBooks ⟨some "New Book", some "Author", some "Genre", some 10⟩ =
      (seedBooks ++ [⟨4, some "New Book", some "Author", some "Genre", some 10⟩],
       Response.created ⟨4, some "New Book", some "Author", some "Genre", some 10⟩) :=
  ⟨by decide,
   (c3_create_spec seedBooks ⟨some "New Book", some "Author", some "Genre", some 10⟩
      (by decide)).1⟩

/-- C4: on a PUT whose id parses to n, a matched id means the stored slot is
fully replaced (not merged) by the record built from n and the four payload
fields — absent payload fields become absent on the stored record — the
replaced record keeps the id of the record it overwrites (b.id = n), and
the handler answers 200 with that record; when no stored record has id n
the handler answers 404 with the error body Book not found and the
collection is unchanged. -/
theorem c4_replace_spec (books : List Book) (idStr : String) (p : Payload) (n : Int)
    (hp : parseIntJS idStr = some n) :
    (∀ (i : Nat) (b : Book),
       findIndex (fun x => x.id == n) books = some i → books[i]? = some b →
       updateBook books idStr p =
         (books.set i ⟨n, p.title, p.author, p.genre, p.copiesAvailable⟩,
          Response.okBook ⟨n, p.title, p.author, p.genre, p.copiesAvailable⟩) ∧
       b.id = n ∧
       (updateBook books idStr p).2.status = 200) ∧
    ((∀ b ∈ books, b.id ≠ n) →
       updateBook books idStr p = (books, Response.notFound "Book not found") ∧
       (updateBook books idStr p).2.status = 404) := by
  constructor
  · intro i b hf hb
    have heq : updateBook books idStr p =
        (books.set i ⟨n, p.title, p.author, p.genre, p.copiesAvailable⟩,
         Response.okBook ⟨n, p.title, p.author, p.genre, p.copiesAvailable⟩) := by
      simp [updateBook, hp, hf]
    have hbid : b.id = n := by
      obtain ⟨a, ha, hpa⟩ := findIndex_some _ books i hf
      rw [hb] at ha
      injection ha with hba
      rw [hba]
      simpa using hpa
    exact ⟨heq, hbid, by rw [heq]; rfl⟩
  · intro hnone
    have hf : findIndex (fun x => x.id == n) books = none := by
      rw [findIndex_none_iff]
      intro a ha
      simpa using hnone a ha
    have heq : updateBook books idStr p = (books, Response.notFound "Book not found") := by
      simp [updateBook, hp, hf]
    exact ⟨heq, by rw [heq]; rfl⟩

theorem c4_replace_spec_witness :
    updateBook seedBooks "1" ⟨some "Only Title", none, none, none⟩ =
      (seedBooks.set 0 ⟨1, some "Only Title", none, none, none⟩,
       Response.okBook ⟨1, some "Only Title", none, none, none⟩) :=
  ((c4_replace_spec seedBooks "1" ⟨some "Only Title", none, none, none⟩ 1 (by decide)).1
      0 ⟨1, some "The Great Gatsby", some "F. Scott Fitzgerald", some "Fiction", some 5⟩
      (by decide) (by decide)).1

/-- C5, counterexample to the claim as stated: in the reachable state with
ids 1, 3, 3 (seed, then DELETE 2, then one POST), DELETE /api/books/3
succeeds with 200 and an immediately repeated DELETE /api/books/3 succeeds
with 200 again rather than answering 404, because a second record with
id 3 is still present. -/
theorem c5_counterexample :
    Reachable dupState ∧
    (deleteBook dupState "3").2.status = 200 ∧
    (deleteBook (deleteBook dupState "3").1 "3").2.status = 200 := by
  refine ⟨reachable_runOps [Op.delete "2", Op.create emptyPayload] seedBooks
    Reachable.seed, by decide, by decide⟩

/-- C5, amended: on a DELETE whose id parses to n and matches the record at
index i, the handler removes exactly that record in place (the new state is
the old one with index i erased) and answers 200 with the body containing
the message Book deleted successfully and the deleted record; provided id n
occurred at most once in the collection — as is the case whenever ids are
pairwise distinct — an immediately repeated DELETE of the same id answers
404 and leaves the state unchanged. -/
theorem c5_delete_spec (books : List Book) (idStr : String) (n : Int) (i : Nat) (b : Book)
    (hp : parseIntJS idStr = some n)
    (hf : findIndex (fun x => x.id == n) books = some i)
    (hb : books[i]? = some b)
    (huniq : countMatches (fun x => x.id == n) books ≤ 1) :
    deleteBook books idStr =
      (books.eraseIdx i, Response.deleted "Book deleted successfully" b) ∧
    (deleteBook books idStr).2.status = 200 ∧
    deleteBook (books.eraseIdx i) idStr =
      (books.eraseIdx i, Response.notFound "Book not found") ∧
    (deleteBook (books.eraseIdx i) idStr).2.status = 404 := by
  have hdel : deleteBook books idStr =
      (books.eraseIdx i, Response.deleted "Book deleted successfully" b) := by
    simp [deleteBook, hp, hf, hb]
  have hpb : (b.id == n) = true := by
    obtain ⟨a, ha, hpa⟩ := findIndex_some _ books i hf
    rw [hb] at ha
    injection ha with hba
    rw [hba]
    exact hpa
  have hcount : countMatches (fun x => x.id == n) (books.eraseIdx i) = 0 := by
    have h1 := countMatches_eraseIdx (fun x => x.id == n) books i b hb hpb
    omega
  have hf2 : findIndex (fun x => x.id == n) (books.eraseIdx i) = none :=
    findIndex_eq_none_of_countMatches_zero _ _ hcount
  have hdel2 : deleteBook (books.eraseIdx i) idStr =
      (books.eraseIdx i, Response.notFound "Book not found") := by
    simp [deleteBook, hp, hf2]
  exact ⟨hdel, by rw [hdel]; rfl, hdel2, by rw [hdel2]; rfl⟩

theorem c5_delete_spec_witness :
    deleteBook seedBooks "3" =
      (seedBooks.eraseIdx 2,
       Response.deleted "Book deleted successfully"
         ⟨3, some "1984", some "George Orwell", some "Dystopian Fiction", some 7⟩) ∧
    deleteBook (seedBooks.eraseIdx 2) "3" =
      (seedBooks.eraseIdx 2, Response.notFound "Book not found") :=
  have h := c5_delete_spec seedBooks "3" 3 2
    ⟨3, some "1984", some "George Orwell", some "Dystopian Fiction", some 7⟩
    (by decide) (by decide) (by decide) (by decide)
  ⟨h.1, h.2.2.1⟩

/-- C6: on a GET whose id parses to n, the handler answers 200 with the
first record in collection order whose id is n and leaves the collection
untouched; when no record has id n it answers 404 with the error body Book
not found, again leaving the collection untouched. -/
theorem c6_get_spec (books : List Book) (idStr : String) (n : Int)
    (hp : parseIntJS idStr = some n) :
    (∀ (i : Nat) (b : Book), books[i]? = some b → b.id = n →
       (∀ (j : Nat) (c : Book), j < i → books[j]? = some c → c.id ≠ n) →
       getBookById books idStr = (books, Response.okBook b) ∧
       (getBookById books idStr).2.status = 200) ∧
    ((∀ b ∈ books, b.id ≠ n) →
       getBookById books idStr = (books, Response.notFound "Book not found") ∧
       (getBookById books idStr).2.status = 404) := by
  constructor
  · intro i b hb hbid hfirst
    have hfind : findBook (fun x => x.id == n) books = some b :=
      findBook_first _ books i b hb (by simp [hbid])
        (fun j c hj hc => by simpa using hfirst j c hj hc)
    have heq : getBookById books idStr = (books, Response.okBook b) := by
      simp [getBookById, hp, hfind]
    exact ⟨heq, by rw [heq]; rfl⟩
  · intro hnone
    have hfind : findBook (fun x => x.id == n) books = none :=
      findBook_eq_none _ books (fun a ha => by simpa using hnone a ha)
    have heq : getBookById books idStr = (books, Response.notFound "Book not found") := by
      simp [getBookById, hp, hfind]
    exact ⟨heq, by rw [heq]; rfl⟩

theorem c6_get_spec_witness :
    getBookById seedBooks "1" =
      (seedBooks,
       Response.okBook
         ⟨1, some "The Great Gatsby", some "F. Scott Fitzgerald", some "Fiction", some 5⟩) :=
  ((c6_get_spec seedBooks "1" 1 (by decide)).1 0
      ⟨1, some "The Great Gatsby", some "F. Scott Fitzgerald", some "Fiction", some 5⟩
      (by decide) (by decide) (fun j c hj _ => (Nat.not_lt_zero j hj).elim)).1

/-- C7: whenever the id segment fails to parse as an integer (parseInt
gives NaN), the GET, PUT and DELETE handlers all answer 404 with the error
body Book not found and leave the collection unchanged. -/
theorem c7_nonnumeric_id_404 (books : List Book) (idStr : String) (p : Payload)
    (hp : parseIntJS idStr = none) :
    getBookById books idStr = (books, Response.notFound "Book not found") ∧
    updateBook books idStr p = (books, Response.notFound "Book not found") ∧
    deleteBook books idStr = (books, Response.notFound "Book not found") ∧
    (getBookById books idStr).2.status = 404 ∧
    (updateBook books idStr p).2.status = 404 ∧
    (deleteBook books idStr).2.status = 404 := by
  simp [getBookById, updateBook, deleteBook, hp, Response.status]

theorem c7_nonnumeric_id_404_witness :
    getBookById seedBooks "abc" = (seedBooks, Response.notFound "Book not found") ∧
    updateBook seedBooks "abc" emptyPayload = (seedBooks, Response.notFound "Book not found") ∧
    deleteBook seedBooks "abc" = (seedBooks, Response.notFound "Book not found") :=
  have h := c7_nonnumeric_id_404 seedBooks "abc" emptyPayload (by decide)
  ⟨h.1, h.2.1, h.2.2.1⟩

/-- C8: the test-only reset operation (modelled from the spec, since
src/server.js never defines the resetBooks hook its test suite calls)
restores, from any collection state, exactly the initial 3-record seed:
the records with ids 1, 2 and 3 and their seeded field values. -/
theorem c8_reset_spec (books : List Book) :
    resetBooks books = seedBooks ∧
    resetBooks books =
      [⟨1, some "The Great Gatsby", some "F. Scott Fitzgerald", some "Fiction", some 5⟩,
       ⟨2, some "To Kill a Mockingbird", some "Harper Lee", some "Fiction", some 3⟩,
       ⟨3, some "1984", some "George Orwell", some "Dystopian Fiction", some 7⟩] ∧
    (resetBooks books).length = 3 ∧
    idsOf (resetBooks books) = [1, 2, 3] :=
  ⟨rfl, rfl, rfl, rfl⟩

/-- C9: frame conditions of the mutating handlers.  When the id of a PUT or
DELETE parses to n and matches index i: the PUT leaves the length and every
slot other than i unchanged and preserves the full list of stored ids; the
DELETE produces exactly the old list with index i erased, so the surviving
records keep their relative order, and the surviving ids are exactly the
old ids with position i erased; and every POST leaves all existing ids
unchanged, only appending the fresh one.  In particular no operation ever
changes the id of a stored record. -/
theorem c9_frame (books : List Book) (idStr : String) (p : Payload) (n : Int) (i : Nat)
    (hp : parseIntJS idStr = some n)
    (hf : findIndex (fun b => b.id == n) books = some i) :
    ((updateBook books idStr p).1.length = books.length ∧
     (∀ (j : Nat), j ≠ i → (updateBook books idStr p).1[j]? = books[j]?) ∧
     idsOf (updateBook books idStr p).1 = idsOf books) ∧
    ((deleteBook books idStr).1 = books.eraseIdx i ∧
     idsOf (deleteBook books idStr).1 = (idsOf books).eraseIdx i) ∧
    (∀ (q : Payload),
       idsOf (createBook books q).1 = idsOf books ++ [(books.length : Int) + 1]) := by
  obtain ⟨b, hb, hpb⟩ := findIndex_some _ books i hf
  have hupd : (updateBook books idStr p).1 =
      books.set i ⟨n, p.title, p.author, p.genre, p.copiesAvailable⟩ := by
    simp [updateBook, hp, hf]
  have hdel : (deleteBook books idStr).1 = books.eraseIdx i := by
    simp [deleteBook, hp, hf, hb]
  refine ⟨⟨?_, ?_, updateBook_ids books idStr p⟩, ⟨hdel, ?_⟩, fun q => createBook_ids books q⟩
  · rw [hupd, List.length_set]
  · intro j hj
    rw [hupd]
    exact List.getElem?_set_ne (Ne.symm hj)
  · rw [hdel]
    exact map_eraseIdx Book.id books i

theorem c9_frame_witness :
    (updateBook seedBooks "2" emptyPayload).1.length = seedBooks.length ∧
    (deleteBook seedBooks "2").1 = seedBooks.eraseIdx 1 :=
  have h := c9_frame seedBooks "2" emptyPayload 2 1 (by decide) (by decide)
  ⟨h.1.1, h.2.1.1⟩

/-- C10, counterexample to the claim as stated: the segment 0x10 is a digit
(the single digit 0) followed by trailing non-digit characters, so the
claim predicts it behaves as id 0; but parseInt with no radix reads the 0x
marker and parses hexadecimal, giving 16.  In the reachable sixteen-record
state the GET on 0x10 answers 200 (record 16) while the GET on the numeric
prefix 0 answers 404. -/
theorem c10_counterexample :
    ('0').isDigit = true ∧ ('x').isDigit = false ∧
    "0x10".data = ['0'] ++ ['x', '1', '0'] ∧
    parseIntJS "0x10" = some 16 ∧ parseIntJS "0" = some 0 ∧
    Reachable state16 ∧
    (getBookById state16 "0x10").2.status = 200 ∧
    (getBookById state16 "0").2.status = 404 ∧
    getBookById state16 "0x10" ≠ getBookById state16 "0" := by
  refine ⟨by decide, by decide, by decide, by decide, by decide,
    reachable_runOps (List.replicate 13 (Op.create emptyPayload)) seedBooks Reachable.seed,
    by decide, by decide, by decide⟩

/-- C10, amended: for every id segment made of one or more digits followed
by characters whose first one is not a digit, parseInt returns the leading
decimal number and the GET, PUT and DELETE handlers behave exactly as if
the numeric prefix alone had been supplied — except in the one case where
the digits are exactly 0 and the trailing part starts with x or X, which
parseInt reads as a hexadecimal marker. -/
theorem c10_digit_segment (books : List Book) (p : Payload) (ds suf : List Char)
    (hne : ds ≠ [])
    (hds : ∀ c ∈ ds, c.isDigit = true)
    (hsuf : (suf.head?.all fun c => !c.isDigit) = true)
    (hnohex : ¬(ds = ['0'] ∧ (suf.head? = some 'x' ∨ suf.head? = some 'X'))) :
    parseIntJS (String.mk (ds ++ suf)) = parseIntJS (String.mk ds) ∧
    getBookById books (String.mk (ds ++ suf)) = getBookById books (String.mk ds) ∧
    updateBook books (String.mk (ds ++ suf)) p = updateBook books (String.mk ds) p ∧
    deleteBook books (String.mk (ds ++ suf)) = deleteBook books (String.mk ds) := by
  have hparse : parseIntJS (String.mk (ds ++ suf)) = parseIntJS (String.mk ds) := by
    rw [parseIntJS_digits_append ds suf hne hds hsuf hnohex, parseIntJS_digits ds hne hds]
  obtain ⟨h1, h2, h3⟩ := handlers_factor books p _ _ hparse
  exact ⟨hparse, h1, h2, h3⟩

theorem c10_digit_segment_witness :
    parseIntJS (String.mk (['2'] ++ ['a', 'b', 'c'])) = parseIntJS (String.mk ['2']) ∧
    getBookById seedBooks (String.mk (['2'] ++ ['a', 'b', 'c'])) =
      getBookById seedBooks (String.mk ['2']) ∧
    (getBookById seedBooks "2abc").2.status = 200 :=
  have h := c10_digit_segment seedBooks emptyPayload ['2'] ['a', 'b', 'c']
    (by decide) (by decide) (by decide) (by decide)
  ⟨h.1, h.2.1, by decide⟩

end BookStore
